import Mathlib

/-!
Verification development for the icp-analysis repository.

The repository has two stages:
* `load_data.py` ingests a CSV of per-sample immune-cell counts into two
  SQLite tables (`subjects`, `samples`) with insert-if-absent semantics;
* `app.py` builds three views over these tables: a long-format frequency
  table with per-population percentages (`build_frequency_df`), a cohort
  comparison with a per-population Welch t-test (`build_stat_data`), and
  a baseline subset with groupby counts (`build_subset_data`).

Float results that can be NaN or infinite (percentages with a zero total,
t-statistics and p-values for degenerate groups) are represented by the
extended-rational type `ERat` below; finite float arithmetic is modelled by
exact rational arithmetic.  The square root and the Student-t survival
function used by `scipy.stats.ttest_ind` are strictly monotone real
functions with no exact rational representation, so the statistics
definitions take them as explicit function parameters; every theorem about
them holds for an arbitrary choice of these parameters.
-/

namespace ICP

/-- Extended rational: a finite value, `NaN`, `+inf` or `-inf`, mirroring
the IEEE-754 special values that the pandas/NumPy pipeline can produce. -/
inductive ERat where
  | nan : ERat
  | pinf : ERat
  | ninf : ERat
  | fin : ℚ → ERat
deriving DecidableEq

/-- Is this a finite value? -/
def ERat.isFin : ERat → Bool
  | ERat.fin _ => true
  | _ => false

/-- IEEE negation on extended rationals. -/
def eneg : ERat → ERat
  | ERat.nan => ERat.nan
  | ERat.pinf => ERat.ninf
  | ERat.ninf => ERat.pinf
  | ERat.fin q => ERat.fin (-q)

/-- IEEE absolute value on extended rationals. -/
def eabs : ERat → ERat
  | ERat.nan => ERat.nan
  | ERat.pinf => ERat.pinf
  | ERat.ninf => ERat.pinf
  | ERat.fin q => ERat.fin |q|

/-- IEEE addition on extended rationals (`inf + -inf = NaN`). -/
def eadd : ERat → ERat → ERat
  | ERat.nan, _ => ERat.nan
  | _, ERat.nan => ERat.nan
  | ERat.pinf, ERat.ninf => ERat.nan
  | ERat.ninf, ERat.pinf => ERat.nan
  | ERat.pinf, _ => ERat.pinf
  | _, ERat.pinf => ERat.pinf
  | ERat.ninf, _ => ERat.ninf
  | _, ERat.ninf => ERat.ninf
  | ERat.fin a, ERat.fin b => ERat.fin (a + b)

/-- Sum of a list of extended rationals, as `np.sum` would compute it. -/
def esum (l : List ERat) : ERat := l.foldl eadd (ERat.fin 0)

/-- Python comparison `x < c` on a possibly non-finite float `x`:
`NaN < c` and `inf < c` are `False`, `-inf < c` is `True`. -/
def eratLtQ : ERat → ℚ → Bool
  | ERat.nan, _ => false
  | ERat.pinf, _ => false
  | ERat.ninf, _ => true
  | ERat.fin q, c => decide (q < c)

/-- Round to the nearest integer, ties to even: the rounding used by
Python `round` and NumPy/pandas `.round`. -/
def rndHE (q : ℚ) : ℤ :=
  if Int.fract q < 1 / 2 then ⌊q⌋
  else if 1 / 2 < Int.fract q then ⌊q⌋ + 1
  else if 2 ∣ ⌊q⌋ then ⌊q⌋ else ⌊q⌋ + 1

/-- `round(q, d)`: round to `d` decimal places, ties to even. -/
def roundTo (d : ℕ) (q : ℚ) : ℚ := (rndHE (q * 10 ^ d) : ℚ) / 10 ^ d

/-- `round(x, d)` on a possibly non-finite float: NaN and infinities are
returned unchanged. -/
def eratRound (d : ℕ) : ERat → ERat
  | ERat.fin q => ERat.fin (roundTo d q)
  | e => e

/-! ## Data model: the `subjects` and `samples` tables of `load_data.py` -/

/-- One row of the `subjects` table.  `response` is `none` when the CSV
response field was empty (stored as SQL NULL, the "unknown" response). -/
structure Subject where
  subject_id : String
  project_id : String
  condition : String
  age : ℤ
  sex : String
  treatment : String
  response : Option String
deriving DecidableEq

/-- One row of the `samples` table. -/
structure Sample where
  sample_id : String
  subject_id : String
  sample_type : String
  time_from_treatment_start : ℤ
  b_cell : ℤ
  cd8_t_cell : ℤ
  cd4_t_cell : ℤ
  nk_cell : ℤ
  monocyte : ℤ
deriving DecidableEq

/-- The relational store: the two tables, rows in insertion order. -/
structure DB where
  subjects : List Subject
  samples : List Sample
deriving DecidableEq

/-- The freshly created empty store (`init_db` after `os.remove`). -/
def dbEmpty : DB := ⟨[], []⟩

/-! ## Ingestion: `load_csv` of `load_data.py` -/

/-- One raw CSV row as produced by `csv.DictReader`: every field a string. -/
structure CsvRow where
  project : String
  subject : String
  sample : String
  condition : String
  age : String
  sex : String
  treatment : String
  response : String
  sample_type : String
  time_from_treatment_start : String
  b_cell : String
  cd8_t_cell : String
  cd4_t_cell : String
  nk_cell : String
  monocyte : String
deriving DecidableEq

/-- Digit-string accumulator for `pyInt`. -/
def parseDigitsAux : List Char → ℕ → Option ℕ
  | [], acc => some acc
  | c :: cs, acc =>
    if c.isDigit then parseDigitsAux cs (acc * 10 + (c.toNat - 48)) else none

/-- Parse a non-empty all-digit string. -/
def parseDigits (cs : List Char) : Option ℕ :=
  if cs.isEmpty then none else parseDigitsAux cs 0

/-- Python `int(s)` on a decimal string: `some` value on success, `none`
when `int` would raise `ValueError`. -/
def pyInt (s : String) : Option ℤ :=
  match s.data with
  | [] => none
  | c :: cs =>
    if c = '-' then (parseDigits cs).map (fun n => -(n : ℤ))
    else if c = '+' then (parseDigits cs).map (fun n => (n : ℤ))
    else (parseDigits (c :: cs)).map (fun n => (n : ℤ))

/-- The response value stored for a subject: empty CSV field becomes NULL
("unknown"), anything else is stored verbatim. -/
def respOf (r : CsvRow) : Option String :=
  if r.response = "" then none else some r.response

/-- The subject record built from CSV row `r` with parsed age `a`. -/
def subjOf (r : CsvRow) (a : ℤ) : Subject :=
  ⟨r.subject, r.project, r.condition, a, r.sex, r.treatment, respOf r⟩

/-- The sample record built from CSV row `r` with its six parsed integers. -/
def sampleOf (r : CsvRow) (tf b c8 c4 nk mo : ℤ) : Sample :=
  ⟨r.sample, r.subject, r.sample_type, tf, b, c8, c4, nk, mo⟩

/-- `INSERT OR IGNORE INTO subjects`: append unless the primary key
`subject_id` is already present. -/
def insertSubject (db : DB) (su : Subject) : DB :=
  if db.subjects.any (fun x => x.subject_id == su.subject_id) then db
  else { db with subjects := db.subjects ++ [su] }

/-- `INSERT OR IGNORE INTO samples`: append unless the primary key
`sample_id` is already present. -/
def insertSample (db : DB) (s : Sample) : DB :=
  if db.samples.any (fun x => x.sample_id == s.sample_id) then db
  else { db with samples := db.samples ++ [s] }

/-- The subjects-table half of one loop iteration of `load_csv`: skipped
entirely when the subject id is in the run's `subjects_seen` set, otherwise
`int(row["age"])` is parsed (a `ValueError` aborts) and the record is
inserted with `INSERT OR IGNORE`. -/
def subjStep (db : DB) (seen : List String) (r : CsvRow) :
    Except String (DB × List String) :=
  if r.subject ∈ seen then Except.ok (db, seen)
  else
    match pyInt r.age with
    | none => Except.error "ValueError: invalid literal for int: age"
    | some a => Except.ok (insertSubject db (subjOf r a), seen ++ [r.subject])

/-- One loop iteration of `load_csv`: the subject step, then the sample
insert, whose integer fields are always parsed (a `ValueError` aborts). -/
def loadRow (db : DB) (seen : List String) (r : CsvRow) :
    Except String (DB × List String) :=
  match subjStep db seen r with
  | Except.error e => Except.error e
  | Except.ok (db1, seen1) =>
    match pyInt r.time_from_treatment_start, pyInt r.b_cell, pyInt r.cd8_t_cell,
        pyInt r.cd4_t_cell, pyInt r.nk_cell, pyInt r.monocyte with
    | some tf, some b, some c8, some c4, some nk, some mo =>
      Except.ok (insertSample db1 (sampleOf r tf b c8 c4 nk mo), seen1)
    | _, _, _, _, _, _ =>
      Except.error "ValueError: invalid literal for int: sample fields"

/-- The row loop of `load_csv`, threading the store and the
`subjects_seen` set; the first `ValueError` aborts the whole run. -/
def loadCsvAux : DB → List String → List CsvRow → Except String (DB × List String)
  | db, seen, [] => Except.ok (db, seen)
  | db, seen, r :: rs =>
    match loadRow db seen r with
    | Except.error e => Except.error e
    | Except.ok (db1, seen1) => loadCsvAux db1 seen1 rs

/-- `load_csv`: load all CSV rows into the store, starting with an empty
`subjects_seen` set.  An uncaught `ValueError` leaves the transaction
uncommitted, so an error discards all of the run's inserts. -/
def load_csv (db : DB) (rows : List CsvRow) : Except String DB :=
  match loadCsvAux db [] rows with
  | Except.error e => Except.error e
  | Except.ok (db1, _) => Except.ok db1

/-- Did ingestion complete without aborting? -/
def isOkE (e : Except String DB) : Bool :=
  match e with
  | Except.ok _ => true
  | Except.error _ => false

/-! ## Query layer shared pieces (`app.py`) -/

/-- The five immune-cell populations, in the order of `POPULATIONS`. -/
def POPULATIONS : List String :=
  ["b_cell", "cd8_t_cell", "cd4_t_cell", "nk_cell", "monocyte"]

/-- The `LABELS2TXT` dict (missing keys never arise: it is only applied to
members of `POPULATIONS`). -/
def LABELS2TXT (p : String) : String :=
  if p = "b_cell" then "B Cell"
  else if p = "cd8_t_cell" then "CD8 T Cell"
  else if p = "cd4_t_cell" then "CD4 T Cell"
  else if p = "nk_cell" then "NK Cell"
  else if p = "monocyte" then "Monocyte"
  else ""

/-- `FROM samples s JOIN subjects su ON s.subject_id = su.subject_id`. -/
def joinRows (db : DB) : List (Sample × Subject) :=
  db.samples.flatMap (fun s =>
    (db.subjects.filter (fun su => su.subject_id == s.subject_id)).map
      (fun su => (s, su)))

/-- The count column of sample `s` for population `p`. -/
def popCountS (s : Sample) (p : String) : ℤ :=
  if p = "b_cell" then s.b_cell
  else if p = "cd8_t_cell" then s.cd8_t_cell
  else if p = "cd4_t_cell" then s.cd4_t_cell
  else if p = "nk_cell" then s.nk_cell
  else s.monocyte

/-- `total_count`: the row-wise sum of the five population counts. -/
def totalOfS (s : Sample) : ℤ :=
  s.b_cell + s.cd8_t_cell + s.cd4_t_cell + s.nk_cell + s.monocyte

/-- `(num / den * 100).round(d)` in float arithmetic: division by zero
gives NaN (`0/0`) or a signed infinity, which `*100` and `.round` keep. -/
def pctRound (d : ℕ) (num den : ℤ) : ERat :=
  if den = 0 then
    (if num = 0 then ERat.nan else if 0 < num then ERat.pinf else ERat.ninf)
  else ERat.fin (roundTo d ((num : ℚ) / (den : ℚ) * 100))

/-! ## Part 2: `build_frequency_df` and the `update_freq_table` callback -/

/-- One row of the long-format frequency table. -/
structure FreqRow where
  sample : String
  project : String
  condition : String
  treatment : String
  sample_type : String
  total_count : ℤ
  population : String
  count : ℤ
  percentage : ERat
deriving DecidableEq

/-- The melted row for population `p` of one joined (sample, subject). -/
def freqRowOf (p : String) (sp : Sample × Subject) : FreqRow :=
  { sample := sp.1.sample_id
  , project := sp.2.project_id
  , condition := sp.2.condition
  , treatment := sp.2.treatment
  , sample_type := sp.1.sample_type
  , total_count := totalOfS sp.1
  , population := p
  , count := popCountS sp.1 p
  , percentage := pctRound 2 (popCountS sp.1 p) (totalOfS sp.1) }

/-- `build_frequency_df`: join, compute `total_count`, melt to one row per
(sample, population) pair (population-major, as `DataFrame.melt` stacks the
value columns), and attach `percentage = (count/total_count*100).round(2)`. -/
def buildFrequencyDf (db : DB) : List FreqRow :=
  POPULATIONS.flatMap (fun p => (joinRows db).map (freqRowOf p))

/-- The columns of the frequency table kept by the dashboard callback. -/
structure DisplayRow where
  sample : String
  population : String
  total_count : ℤ
  count : ℤ
  percentage : ERat
deriving DecidableEq

/-- The conjunctive filter of the `update_freq_table` callback; `"__all__"`
is the sentinel for an absent filter. -/
def rowMatches (pj cd tr st pp : String) (r : FreqRow) : Bool :=
  (pj == "__all__" || r.project == pj) &&
  (cd == "__all__" || r.condition == cd) &&
  (tr == "__all__" || r.treatment == tr) &&
  (st == "__all__" || r.sample_type == st) &&
  (pp == "__all__" || r.population == pp)

/-- The `update_freq_table` callback: filter the cached frequency table and
keep the five display columns. -/
def update_freq_table (pj cd tr st pp : String) (df : List FreqRow) :
    List DisplayRow :=
  (df.filter (rowMatches pj cd tr st pp)).map
    (fun r => ⟨r.sample, r.population, r.total_count, r.count, r.percentage⟩)

/-! ## Part 3: `build_stat_data` -/

/-- The cohort query of `build_stat_data`: joined rows with
`condition = 'melanoma'`, `treatment = 'miraclib'`, `sample_type = 'PBMC'`
and `response IS NOT NULL`. -/
def statQuery (db : DB) : List (Sample × Subject) :=
  (joinRows db).filter (fun sp =>
    sp.2.condition == "melanoma" && sp.2.treatment == "miraclib" &&
    sp.1.sample_type == "PBMC" && sp.2.response.isSome)

/-- The per-sample percentage column `{p}_pct` of `build_stat_data`. -/
def pctOf (s : Sample) (p : String) : ERat :=
  pctRound 2 (popCountS s p) (totalOfS s)

/-- The `RESPONSE_LABELS` relabelling used for `resp_label` (a pandas
`map`: values outside the dict become NaN, here `none`). -/
def respLabelOf (resp : Option String) : Option String :=
  if resp == some "yes" then some "Responder"
  else if resp == some "no" then some "Non-Responder"
  else none

/-- One row of `plot_df`. -/
structure PlotRow where
  sample_id : String
  response : Option String
  population : String
  pop_label : String
  resp_label : Option String
  percentage : ERat
deriving DecidableEq

/-- `plot_df`: the cohort rows melted to one row per (sample, population)
pair with labels attached. -/
def buildPlotDf (db : DB) : List PlotRow :=
  POPULATIONS.flatMap (fun p =>
    (statQuery db).map (fun sp =>
      ⟨sp.1.sample_id, sp.2.response, p, LABELS2TXT p,
        respLabelOf sp.2.response, pctOf sp.1 p⟩))

/-- Are all observations finite?  (`allFin = false` means the group
contains a NaN or infinite percentage.) -/
def allFin (l : List ERat) : Bool := l.all (fun e => e.isFin)

/-- The finite values of a list of observations. -/
def finVals (l : List ERat) : List ℚ :=
  l.filterMap (fun e =>
    match e with
    | ERat.fin q => some q
    | _ => none)

/-- `np.mean` of a list of finite values. -/
def mean (l : List ℚ) : ℚ := l.sum / (l.length : ℚ)

/-- The unbiased sample variance (`ddof = 1`) of a list of finite values,
as used by `ttest_ind`. -/
def svar (l : List ℚ) : ℚ :=
  ((l.map (fun x => (x - mean l) ^ 2)).sum) / ((l.length : ℚ) - 1)

/-- The variance-over-size term `v / n` of one group. -/
def vOverN (l : List ℚ) : ℚ := svar l / (l.length : ℚ)

/-- The Welch t-statistic of `scipy.stats.ttest_ind(ys, ns, equal_var=False)`,
with the real square root abstracted as `sqrtF`.  The statistic is NaN when
either group has fewer than two observations (the `ddof = 1` variance of
such a group is NaN) and when a group contains a non-finite observation
(means and variances then propagate NaN, or the `inf / inf` ratio is NaN).
With both variances zero the denominator is zero: `0/0` is NaN and a
nonzero numerator over zero is a signed infinity. -/
def welchT (sqrtF : ℚ → ℚ) (ys ns : List ERat) : ERat :=
  if ys.length < 2 ∨ ns.length < 2 then ERat.nan
  else if allFin ys && allFin ns then
    if vOverN (finVals ys) + vOverN (finVals ns) = 0 then
      if mean (finVals ys) = mean (finVals ns) then ERat.nan
      else if mean (finVals ns) < mean (finVals ys) then ERat.pinf else ERat.ninf
    else
      ERat.fin ((mean (finVals ys) - mean (finVals ns)) /
        sqrtF (vOverN (finVals ys) + vOverN (finVals ns)))
  else ERat.nan

/-- The Welch–Satterthwaite degrees of freedom. -/
def welchDF (a b : List ℚ) : ℚ :=
  (vOverN a + vOverN b) ^ 2 /
    ((vOverN a) ^ 2 / ((a.length : ℚ) - 1) + (vOverN b) ^ 2 / ((b.length : ℚ) - 1))

/-- The two-sided p-value `2 * sf(|t|, df)` of `ttest_ind`, with the
Student-t survival function abstracted as `sfF`.  A NaN statistic gives a
NaN p-value; an infinite statistic gives `2 * sf(inf) = 0`. -/
def welchP (sqrtF : ℚ → ℚ) (sfF : ℚ → ℚ → ℚ) (ys ns : List ERat) : ERat :=
  match welchT sqrtF ys ns with
  | ERat.nan => ERat.nan
  | ERat.pinf => ERat.fin 0
  | ERat.ninf => ERat.fin 0
  | ERat.fin t => ERat.fin (2 * sfF |t| (welchDF (finVals ys) (finVals ns)))

/-- `round(float(np.mean(l)), 2)`: NaN for an empty group, otherwise the
rounded mean (non-finite observations propagate through the sum). -/
def meanE (l : List ERat) : ERat :=
  if l.length = 0 then ERat.nan
  else
    match esum l with
    | ERat.fin q => ERat.fin (roundTo 2 (q / (l.length : ℚ)))
    | e => e

/-- One row of the t-test results table `stat_df`. -/
structure StatRow where
  populationLabel : String
  nYes : ℕ
  nNo : ℕ
  meanYes : ERat
  meanNo : ERat
  tStat : ERat
  pval : ERat
  significant : String
deriving DecidableEq

/-- One row of `stat_df`: the dict literal built per population in
`build_stat_data`, with the reported rounding applied and the significance
flag computed from the unrounded p-value. -/
def statRow (sqrtF : ℚ → ℚ) (sfF : ℚ → ℚ → ℚ) (p : String) (ys ns : List ERat) :
    StatRow :=
  { populationLabel := LABELS2TXT p
  , nYes := ys.length
  , nNo := ns.length
  , meanYes := meanE ys
  , meanNo := meanE ns
  , tStat := eratRound 3 (welchT sqrtF ys ns)
  , pval := eratRound 4 (welchP sqrtF sfF ys ns)
  , significant := if eratLtQ (welchP sqrtF sfF ys ns) (1 / 20) then "Yes" else "No" }

/-- The percentage observations of the cohort rows whose response equals
`resp`, for population `p` (`raw.loc[raw["response"] == resp, col]`). -/
def groupVals (db : DB) (resp : String) (p : String) : List ERat :=
  (statQuery db).filterMap (fun sp =>
    if sp.2.response == some resp then some (pctOf sp.1 p) else none)

/-- `stat_df`: one t-test row per population. -/
def buildStatRows (sqrtF : ℚ → ℚ) (sfF : ℚ → ℚ → ℚ) (db : DB) : List StatRow :=
  POPULATIONS.map (fun p =>
    statRow sqrtF sfF p (groupVals db "yes" p) (groupVals db "no" p))

/-- `build_stat_data`: the pair `(plot_df, stat_df)`. -/
def buildStatData (sqrtF : ℚ → ℚ) (sfF : ℚ → ℚ → ℚ) (db : DB) :
    List PlotRow × List StatRow :=
  (buildPlotDf db, buildStatRows sqrtF sfF db)

/-! ## Part 4: `build_subset_data` -/

/-- One row of the baseline subset query. -/
structure SubsetRow where
  sample_id : String
  subject_id : String
  project_id : String
  response : Option String
  sex : String
deriving DecidableEq

/-- The baseline query of `build_subset_data`: melanoma, miraclib, PBMC,
`time_from_treatment_start = 0`. -/
def subsetQuery (db : DB) : List SubsetRow :=
  (joinRows db).filterMap (fun sp =>
    if sp.2.condition == "melanoma" && sp.2.treatment == "miraclib" &&
        sp.1.sample_type == "PBMC" && sp.1.time_from_treatment_start == 0 then
      some ⟨sp.1.sample_id, sp.2.subject_id, sp.2.project_id, sp.2.response, sp.2.sex⟩
    else none)

/-- `df.drop_duplicates("subject_id")`: keep the first row per subject. -/
def dedupBySubject : List SubsetRow → List String → List SubsetRow
  | [], _ => []
  | r :: rs, ks =>
    if r.subject_id ∈ ks then dedupBySubject rs ks
    else r :: dedupBySubject rs (r.subject_id :: ks)

/-- The deduplicated subjects `subj` of `build_subset_data`. -/
def subjUnique (db : DB) : List SubsetRow := dedupBySubject (subsetQuery db) []

/-- Insert a key into an ascending list of keys. -/
def insertSorted (a : String) : List String → List String
  | [] => [a]
  | b :: bs => if a < b then a :: b :: bs else b :: insertSorted a bs

/-- Sort keys ascending (insertion sort). -/
def sortKeys (l : List String) : List String := l.foldr insertSorted []

/-- `groupby(key, sort=True).size()` over a list of (non-null) keys:
distinct keys in ascending order, each with its number of occurrences. -/
def groupCounts (l : List String) : List (String × ℕ) :=
  (sortKeys l.dedup).map (fun k => (k, l.count k))

/-- The total of the size column of a groupby result. -/
def sumCounts (l : List (String × ℕ)) : ℕ := (l.map (fun kv => kv.2)).sum

/-- `samples_per_project`: sample counts grouped by project. -/
def samplesPerProject (df : List SubsetRow) : List (String × ℕ) :=
  groupCounts (df.map (fun r => r.project_id))

/-- `subjects_by_response`: deduplicated subjects grouped by response.
pandas `groupby` drops rows whose key is NULL, so only subjects with a
non-null response are counted. -/
def subjectsByResponse (subj : List SubsetRow) : List (String × ℕ) :=
  groupCounts (subj.filterMap (fun r => r.response))

/-- `subjects_by_sex`: deduplicated subjects grouped by sex (a plain
string column, never NULL for ingested data). -/
def subjectsBySex (subj : List SubsetRow) : List (String × ℕ) :=
  groupCounts (subj.map (fun r => r.sex))

/-! ## Concrete example data used by witnesses and counterexamples -/

/-- A melanoma/miraclib responder subject. -/
def subjEx : Subject := ⟨"sub1", "prj1", "melanoma", 30, "M", "miraclib", some "yes"⟩

/-- A PBMC sample of `subjEx` whose five counts are all zero. -/
def smpZero : Sample := ⟨"smp0", "sub1", "PBMC", 0, 0, 0, 0, 0, 0⟩

/-- A store with one subject and one all-zero-count sample. -/
def dbEx : DB := ⟨[subjEx], [smpZero]⟩

/-! ## Claim theorems -/

/-- Claim C1: every row of the frequency view has
`percentage = round(count / total_count * 100, 2)`; for a sample whose
`total_count` is 0 the percentage is NaN/undefined (never a finite value,
in particular not zero, and exactly NaN when the count is 0 as it always is
for non-negative counts), and the `update_freq_table` callback passes every
displayed row through from the view with the percentage unchanged. -/
theorem c1_frequency_percentage (db : DB) :
    (∀ row ∈ buildFrequencyDf db,
      (row.total_count ≠ 0 →
        row.percentage =
          ERat.fin (roundTo 2 ((row.count : ℚ) / (row.total_count : ℚ) * 100)))
      ∧ (row.total_count = 0 → row.percentage.isFin = false)
      ∧ (row.total_count = 0 → row.count = 0 → row.percentage = ERat.nan))
    ∧ (∀ pj cd tr st pp : String,
        ∀ d ∈ update_freq_table pj cd tr st pp (buildFrequencyDf db),
        ∃ row ∈ buildFrequencyDf db,
          d.percentage = row.percentage ∧ d.total_count = row.total_count ∧
          d.count = row.count ∧ d.sample = row.sample ∧
          d.population = row.population) := by
  constructor
  · intro row hrow
    simp only [buildFrequencyDf, List.mem_flatMap, List.mem_map] at hrow
    obtain ⟨p, _, sp, _, rfl⟩ := hrow
    refine ⟨?_, ?_, ?_⟩
    · intro htc
      simp only [freqRowOf] at htc ⊢
      simp only [pctRound, if_neg htc]
    · intro htc
      simp only [freqRowOf] at htc ⊢
      simp only [pctRound, if_pos htc]
      split <;> try rfl
      split <;> rfl
    · intro htc hc
      simp only [freqRowOf] at htc hc ⊢
      simp only [pctRound, if_pos htc, if_pos hc]
  · intro pj cd tr st pp d hd
    simp only [update_freq_table, List.mem_map, List.mem_filter] at hd
    obtain ⟨row, ⟨hmem, _⟩, rfl⟩ := hd
    exact ⟨row, hmem, rfl, rfl, rfl, rfl, rfl⟩

/-- Witness for C1 at a concrete store: the all-zero-count sample `smpZero`
yields a frequency row with `total_count = 0` whose percentage is NaN. -/
theorem c1_frequency_percentage_witness :
    (freqRowOf "b_cell" (smpZero, subjEx)).total_count = 0 ∧
    (freqRowOf "b_cell" (smpZero, subjEx)).percentage = ERat.nan :=
  ⟨by decide,
    ((c1_frequency_percentage dbEx).1 (freqRowOf "b_cell" (smpZero, subjEx))
      (by decide)).2.2 (by decide) (by decide)⟩

/-- Inserting into the sorted key list is a permutation of consing. -/
lemma insertSorted_perm (a : String) (l : List String) :
    (insertSorted a l).Perm (a :: l) := by
  induction l with
  | nil => exact List.Perm.refl _
  | cons b bs ih =>
    by_cases h : a < b
    · simp [insertSorted, h]
    · simp only [insertSorted, if_neg h]
      exact (ih.cons b).trans (List.Perm.swap a b bs)

/-- Sorting the keys permutes them. -/
lemma sortKeys_perm (l : List String) : (sortKeys l).Perm l := by
  induction l with
  | nil => exact List.Perm.refl _
  | cons a as ih =>
    simp only [sortKeys, List.foldr_cons]
    exact (insertSorted_perm a _).trans (ih.cons a)

/-- The size column of a groupby result always sums to the number of
grouped (non-null) keys. -/
lemma sumCounts_groupCounts (l : List String) : sumCounts (groupCounts l) = l.length := by
  unfold sumCounts groupCounts
  rw [List.map_map]
  have hcomp :
      ((fun kv : String × ℕ => kv.2) ∘ fun k => (k, l.count k)) =
        fun k => l.count k := rfl
  rw [hcomp]
  have hperm := (sortKeys_perm l.dedup).map (fun k => l.count k)
  rw [hperm.sum_eq]
  exact List.sum_map_count_dedup_eq_length l

/-- The length of `filterMap` over the response column equals the number of
rows with a non-null response. -/
lemma length_filterMap_response (l : List SubsetRow) :
    (l.filterMap (fun r => r.response)).length =
      (l.filter (fun r => r.response.isSome)).length := by
  induction l with
  | nil => rfl
  | cons r rs ih =>
    cases hr : r.response <;>
      simp [List.filterMap_cons, List.filter_cons, hr, ih]

/-- Claim C3: every row of the cohort comparison view `plot_df` comes from
a sample joined to a subject with `condition = "melanoma"`,
`treatment = "miraclib"`, `sample_type = "PBMC"` and a non-unknown
(non-NULL) response. -/
theorem c3_cohort_filter (db : DB) :
    ∀ row ∈ buildPlotDf db, ∃ s ∈ db.samples, ∃ su ∈ db.subjects,
      su.subject_id = s.subject_id ∧ s.sample_id = row.sample_id ∧
      su.condition = "melanoma" ∧ su.treatment = "miraclib" ∧
      s.sample_type = "PBMC" ∧ su.response ≠ none ∧ row.response = su.response := by
  intro row hrow
  simp only [buildPlotDf, List.mem_flatMap, List.mem_map] at hrow
  obtain ⟨p, _, sp, hsp, rfl⟩ := hrow
  simp only [statQuery, List.mem_filter, Bool.and_eq_true, beq_iff_eq] at hsp
  obtain ⟨hjoin, ⟨⟨hcond, htreat⟩, htype⟩, hresp⟩ := hsp
  simp only [joinRows, List.mem_flatMap, List.mem_map, List.mem_filter,
    beq_iff_eq] at hjoin
  obtain ⟨s, hs, su, ⟨hsu, hkey⟩, hpair⟩ := hjoin
  subst hpair
  exact ⟨s, hs, su, hsu, hkey, rfl, hcond, htreat, htype,
    Option.isSome_iff_ne_none.mp hresp, rfl⟩

/-- Witness for C3 at a concrete store: the plot row of `smpZero` for the
b_cell population is in the view, so the cohort facts hold for it. -/
theorem c3_cohort_filter_witness :
    ∃ s ∈ dbEx.samples, ∃ su ∈ dbEx.subjects,
      su.subject_id = s.subject_id ∧
      s.sample_id =
        (PlotRow.mk "smp0" (some "yes") "b_cell" "B Cell" (some "Responder")
          ERat.nan).sample_id ∧
      su.condition = "melanoma" ∧ su.treatment = "miraclib" ∧
      s.sample_type = "PBMC" ∧ su.response ≠ none ∧
      (PlotRow.mk "smp0" (some "yes") "b_cell" "B Cell" (some "Responder")
          ERat.nan).response = su.response :=
  c3_cohort_filter dbEx
    (PlotRow.mk "smp0" (some "yes") "b_cell" "B Cell" (some "Responder") ERat.nan)
    (by decide)

/-- A melanoma/miraclib subject with a NULL (unknown) response. -/
def subjNR : Subject := ⟨"sub9", "prj1", "melanoma", 50, "F", "miraclib", none⟩

/-- A baseline PBMC sample of `subjNR`. -/
def smpNR : Sample := ⟨"smp9", "sub9", "PBMC", 0, 1, 1, 1, 1, 1⟩

/-- A store whose only baseline-cohort subject has a NULL response. -/
def dbNR : DB := ⟨[subjNR], [smpNR]⟩

/-- Counterexample to claim C5 as stated: in `dbNR` the baseline subset has
one distinct subject, but its response is NULL, so the subjects-by-response
counts sum to 0, not to the distinct-subject count (pandas `groupby` drops
NULL keys). -/
theorem c5_subset_sums_counterexample :
    sumCounts (subjectsByResponse (subjUnique dbNR)) ≠ (subjUnique dbNR).length := by
  decide

/-- Claim C5 (amended): for the baseline subset, the per-project sample
counts sum to the row count of the filtered query, and the subjects-by-sex
counts sum to the distinct-subject count; the subjects-by-response counts
sum only to the number of distinct subjects with a non-NULL response,
because the groupby drops subjects whose response is NULL. -/
theorem c5_subset_sums (db : DB) :
    sumCounts (samplesPerProject (subsetQuery db)) = (subsetQuery db).length
    ∧ sumCounts (subjectsBySex (subjUnique db)) = (subjUnique db).length
    ∧ sumCounts (subjectsByResponse (subjUnique db)) =
        ((subjUnique db).filter (fun r => r.response.isSome)).length := by
  refine ⟨?_, ?_, ?_⟩
  · rw [samplesPerProject, sumCounts_groupCounts, List.length_map]
  · rw [subjectsBySex, sumCounts_groupCounts, List.length_map]
  · rw [subjectsByResponse, sumCounts_groupCounts, length_filterMap_response]

/-! ## Rounding and Welch-test symmetry lemmas -/

/-- Ties-to-even rounding is an odd function. -/
lemma rndHE_neg (q : ℚ) : rndHE (-q) = -rndHE q := by
  unfold rndHE
  rcases eq_or_ne (Int.fract q) 0 with h0 | h0
  · have hnf : Int.fract (-q) = 0 := Int.fract_neg_eq_zero.mpr h0
    have hq0 : ((⌊q⌋ : ℚ)) = q := by
      have hq := Int.floor_add_fract q
      rw [h0, add_zero] at hq
      exact hq
    have hfq : ⌊(-q)⌋ = -⌊q⌋ := by
      conv_lhs => rw [← hq0]
      rw [← Int.cast_neg, Int.floor_intCast]
    rw [h0, hnf, hfq]
    norm_num
  · have hpos : 0 < Int.fract q :=
      lt_of_le_of_ne (Int.fract_nonneg q) (Ne.symm h0)
    have hlt1 : Int.fract q < 1 := Int.fract_lt_one q
    have hq : (⌊q⌋ : ℚ) + Int.fract q = q := Int.floor_add_fract q
    have hnf : Int.fract (-q) = 1 - Int.fract q := Int.fract_neg h0
    have hfl : ⌊(-q)⌋ = -⌊q⌋ - 1 := by
      rw [Int.floor_eq_iff]
      push_cast
      constructor
      · linarith
      · linarith
    rw [hnf, hfl]
    split_ifs <;> first | omega | linarith

/-- `round(-q, d) = -round(q, d)`. -/
lemma roundTo_neg (d : ℕ) (q : ℚ) : roundTo d (-q) = -roundTo d q := by
  unfold roundTo
  rw [neg_mul, rndHE_neg]
  push_cast
  ring

/-- Rounding commutes with IEEE negation. -/
lemma eratRound_eneg (d : ℕ) (e : ERat) :
    eratRound d (eneg e) = eneg (eratRound d e) := by
  cases e <;> simp [eratRound, eneg, roundTo_neg]

/-- Absolute value is invariant under IEEE negation. -/
lemma eabs_eneg (e : ERat) : eabs (eneg e) = eabs e := by
  cases e <;> simp [eabs, eneg, abs_neg]

/-- Swapping the two groups negates the Welch t-statistic. -/
lemma welchT_swap (f : ℚ → ℚ) (ys ns : List ERat) :
    welchT f ns ys = eneg (welchT f ys ns) := by
  unfold welchT
  by_cases h1 : ys.length < 2 ∨ ns.length < 2
  · rw [if_pos h1.symm, if_pos h1]
    rfl
  · rw [if_neg (fun hc => h1 hc.symm), if_neg h1]
    by_cases h2 : (allFin ys && allFin ns) = true
    · have h2' : (allFin ns && allFin ys) = true := by
        rw [Bool.and_comm]; exact h2
      rw [if_pos h2', if_pos h2]
      by_cases hd : vOverN (finVals ys) + vOverN (finVals ns) = 0
      · have hd' : vOverN (finVals ns) + vOverN (finVals ys) = 0 := by
          rw [add_comm]; exact hd
        rw [if_pos hd', if_pos hd]
        by_cases hm : mean (finVals ys) = mean (finVals ns)
        · rw [if_pos hm.symm, if_pos hm]
          rfl
        · rw [if_neg (fun hc => hm hc.symm), if_neg hm]
          by_cases hlt : mean (finVals ns) < mean (finVals ys)
          · rw [if_neg (not_lt.mpr hlt.le), if_pos hlt]
            rfl
          · have hlt' : mean (finVals ys) < mean (finVals ns) :=
              lt_of_le_of_ne (not_lt.mp hlt) hm
            rw [if_pos hlt', if_neg hlt]
            rfl
      · have hd' : ¬(vOverN (finVals ns) + vOverN (finVals ys) = 0) := by
          rw [add_comm]; exact hd
        rw [if_neg hd', if_neg hd]
        rw [add_comm (vOverN (finVals ns)) (vOverN (finVals ys)),
          ← neg_sub (mean (finVals ys)) (mean (finVals ns)), neg_div]
        rfl
    · have h2' : ¬((allFin ns && allFin ys) = true) := by
        rw [Bool.and_comm]; exact h2
      rw [if_neg h2', if_neg h2]
      rfl

/-- The Welch–Satterthwaite degrees of freedom are symmetric in the groups. -/
lemma welchDF_comm (a b : List ℚ) : welchDF b a = welchDF a b := by
  unfold welchDF
  rw [add_comm (vOverN b) (vOverN a),
    add_comm ((vOverN b) ^ 2 / ((b.length : ℚ) - 1)) ((vOverN a) ^ 2 / ((a.length : ℚ) - 1))]

/-- Swapping the two groups leaves the two-sided p-value unchanged. -/
lemma welchP_swap (f : ℚ → ℚ) (g : ℚ → ℚ → ℚ) (ys ns : List ERat) :
    welchP f g ns ys = welchP f g ys ns := by
  unfold welchP
  rw [welchT_swap]
  cases hw : welchT f ys ns with
  | nan => rfl
  | pinf => rfl
  | ninf => rfl
  | fin t =>
    show ERat.fin (2 * g |(-t)| (welchDF (finVals ns) (finVals ys))) =
      ERat.fin (2 * g |t| (welchDF (finVals ys) (finVals ns)))
    rw [abs_neg, welchDF_comm]

/-- Claim C6: relabelling which group is "yes" and which is "no" (that is,
swapping the two argument groups of the t-test) negates the sign of the
reported (rounded) t-statistic but leaves its magnitude and the reported
two-sided p-value identical, for any population and any two groups of
percentage observations. -/
theorem c6_ttest_swap_symmetry (sqrtF : ℚ → ℚ) (sfF : ℚ → ℚ → ℚ) (p : String)
    (ys ns : List ERat) :
    (statRow sqrtF sfF p ns ys).tStat = eneg ((statRow sqrtF sfF p ys ns).tStat)
    ∧ eabs ((statRow sqrtF sfF p ns ys).tStat) =
        eabs ((statRow sqrtF sfF p ys ns).tStat)
    ∧ (statRow sqrtF sfF p ns ys).pval = (statRow sqrtF sfF p ys ns).pval := by
  have ht : (statRow sqrtF sfF p ns ys).tStat =
      eneg ((statRow sqrtF sfF p ys ns).tStat) := by
    show eratRound 3 (welchT sqrtF ns ys) = eneg (eratRound 3 (welchT sqrtF ys ns))
    rw [welchT_swap, eratRound_eneg]
  refine ⟨ht, ?_, ?_⟩
  · rw [ht, eabs_eneg]
  · show eratRound 4 (welchP sqrtF sfF ns ys) = eratRound 4 (welchP sqrtF sfF ys ns)
    rw [welchP_swap]

/-- Claim C7: `build_stat_data` always produces one t-test row per
population (the test routine never raises), and whenever either compared
group has fewer than two observations the reported t-statistic and p-value
of that row are NaN. -/
theorem c7_degenerate_groups_nan (sqrtF : ℚ → ℚ) (sfF : ℚ → ℚ → ℚ) (db : DB) :
    (buildStatRows sqrtF sfF db).length = POPULATIONS.length
    ∧ ∀ row ∈ buildStatRows sqrtF sfF db, row.nYes < 2 ∨ row.nNo < 2 →
        row.tStat = ERat.nan ∧ row.pval = ERat.nan := by
  refine ⟨by simp [buildStatRows], ?_⟩
  intro row hrow hdeg
  simp only [buildStatRows, List.mem_map] at hrow
  obtain ⟨p, _, rfl⟩ := hrow
  have hdeg' : (groupVals db "yes" p).length < 2 ∨ (groupVals db "no" p).length < 2 :=
    hdeg
  have hT : welchT sqrtF (groupVals db "yes" p) (groupVals db "no" p) = ERat.nan := by
    unfold welchT
    rw [if_pos hdeg']
  constructor
  · show eratRound 3 (welchT sqrtF (groupVals db "yes" p) (groupVals db "no" p)) =
      ERat.nan
    rw [hT]
    rfl
  · show eratRound 4 (welchP sqrtF sfF (groupVals db "yes" p) (groupVals db "no" p)) =
      ERat.nan
    unfold welchP
    rw [hT]
    rfl

/-- Witness for C7: on the empty store both groups are empty, and the
b_cell row of `stat_df` indeed reports NaN for both statistics. -/
theorem c7_degenerate_groups_nan_witness :
    (statRow (fun _ => (0 : ℚ)) (fun _ _ => (0 : ℚ)) "b_cell"
        (groupVals dbEmpty "yes" "b_cell") (groupVals dbEmpty "no" "b_cell")).tStat =
      ERat.nan ∧
    (statRow (fun _ => (0 : ℚ)) (fun _ _ => (0 : ℚ)) "b_cell"
        (groupVals dbEmpty "yes" "b_cell") (groupVals dbEmpty "no" "b_cell")).pval =
      ERat.nan :=
  (c7_degenerate_groups_nan (fun _ => 0) (fun _ _ => 0) dbEmpty).2
    (statRow (fun _ => (0 : ℚ)) (fun _ _ => (0 : ℚ)) "b_cell"
      (groupVals dbEmpty "yes" "b_cell") (groupVals dbEmpty "no" "b_cell"))
    (by decide) (by decide)

/-- The p-value of the modelled test is either NaN or a finite value
(never an infinity). -/
lemma welchP_nan_or_fin (f : ℚ → ℚ) (g : ℚ → ℚ → ℚ) (ys ns : List ERat) :
    welchP f g ys ns = ERat.nan ∨ ∃ v, welchP f g ys ns = ERat.fin v := by
  unfold welchP
  cases welchT f ys ns with
  | nan => exact Or.inl rfl
  | pinf => exact Or.inr ⟨0, rfl⟩
  | ninf => exact Or.inr ⟨0, rfl⟩
  | fin t => exact Or.inr ⟨_, rfl⟩

/-- Claim C10: the "Significant (p < 0.05)" flag of each t-test row is
"Yes" exactly when the unrounded p-value is a finite value strictly below
0.05; in particular a NaN p-value (degenerate groups) gives the flag "No". -/
theorem c10_significant_flag (sqrtF : ℚ → ℚ) (sfF : ℚ → ℚ → ℚ) (db : DB)
    (p : String) (hp : p ∈ POPULATIONS) :
    statRow sqrtF sfF p (groupVals db "yes" p) (groupVals db "no" p) ∈
      buildStatRows sqrtF sfF db
    ∧ ((statRow sqrtF sfF p (groupVals db "yes" p)
          (groupVals db "no" p)).significant = "Yes" ↔
        ∃ v, welchP sqrtF sfF (groupVals db "yes" p) (groupVals db "no" p) =
            ERat.fin v ∧ v < 1 / 20)
    ∧ (welchP sqrtF sfF (groupVals db "yes" p) (groupVals db "no" p) = ERat.nan →
        (statRow sqrtF sfF p (groupVals db "yes" p)
          (groupVals db "no" p)).significant = "No") := by
  refine ⟨?_, ?_, ?_⟩
  · simp only [buildStatRows, List.mem_map]
    exact ⟨p, hp, rfl⟩
  · show (if eratLtQ (welchP sqrtF sfF (groupVals db "yes" p) (groupVals db "no" p))
        (1 / 20) then "Yes" else "No") = "Yes" ↔ _
    rcases welchP_nan_or_fin sqrtF sfF (groupVals db "yes" p) (groupVals db "no" p)
      with hnan | ⟨v, hv⟩
    · rw [hnan]
      constructor
      · intro h
        simp [eratLtQ] at h
      · rintro ⟨v, hv, -⟩
        exact absurd hv (by simp)
    · rw [hv]
      by_cases hlt : v < 1 / 20
      · constructor
        · intro _
          exact ⟨v, rfl, hlt⟩
        · intro _
          rw [if_pos (show eratLtQ (ERat.fin v) (1 / 20) = true by
            simpa [eratLtQ] using hlt)]
      · constructor
        · intro h
          rw [if_neg (show ¬eratLtQ (ERat.fin v) (1 / 20) = true by
            simpa [eratLtQ] using hlt)] at h
          exact absurd h (by decide)
        · rintro ⟨v', hv', hlt'⟩
          rw [ERat.fin.injEq] at hv'
          exact absurd (hv'.symm ▸ hlt') hlt
  · intro hnan
    show (if eratLtQ (welchP sqrtF sfF (groupVals db "yes" p) (groupVals db "no" p))
        (1 / 20) then "Yes" else "No") = "No"
    rw [hnan]
    rfl

/-- Witness for C10: on the empty store the p-value is NaN and the b_cell
row's flag is "No". -/
theorem c10_significant_flag_witness :
    (statRow (fun _ => (0 : ℚ)) (fun _ _ => (0 : ℚ)) "b_cell"
        (groupVals dbEmpty "yes" "b_cell")
        (groupVals dbEmpty "no" "b_cell")).significant = "No" :=
  (c10_significant_flag (fun _ => 0) (fun _ _ => 0) dbEmpty "b_cell"
    (by decide)).2.2 (by decide)

/-! ## Ingestion lemmas -/

/-- Is a subject primary key present in the store? -/
def hasSubj (db : DB) (sid : String) : Bool :=
  db.subjects.any (fun su => su.subject_id == sid)

/-- Is a sample primary key present in the store? -/
def hasSample (db : DB) (k : String) : Bool :=
  db.samples.any (fun s => s.sample_id == k)

lemma subjects_insertSample (db : DB) (s : Sample) :
    (insertSample db s).subjects = db.subjects := by
  unfold insertSample
  split <;> rfl

lemma samples_insertSubject (db : DB) (su : Subject) :
    (insertSubject db su).samples = db.samples := by
  unfold insertSubject
  split <;> rfl

lemma hasSubj_insertSubject_self (db : DB) (su : Subject) :
    hasSubj (insertSubject db su) su.subject_id = true := by
  unfold insertSubject
  by_cases h : db.subjects.any (fun x => x.subject_id == su.subject_id) = true
  · rw [if_pos h]
    exact h
  · rw [if_neg h]
    simp [hasSubj, List.any_append]

lemma hasSubj_mono_insertSubject (db : DB) (su : Subject) (sid : String)
    (h : hasSubj db sid = true) : hasSubj (insertSubject db su) sid = true := by
  unfold insertSubject
  split
  · exact h
  · simp only [hasSubj, List.any_append, Bool.or_eq_true]
    exact Or.inl h

lemma hasSubj_insertSample (db : DB) (s : Sample) (sid : String) :
    hasSubj (insertSample db s) sid = hasSubj db sid := by
  unfold hasSubj
  rw [subjects_insertSample]

lemma hasSample_insertSubject (db : DB) (su : Subject) (k : String) :
    hasSample (insertSubject db su) k = hasSample db k := by
  unfold hasSample
  rw [samples_insertSubject]

lemma hasSample_insertSample_self (db : DB) (s : Sample) :
    hasSample (insertSample db s) s.sample_id = true := by
  unfold insertSample
  by_cases h : db.samples.any (fun x => x.sample_id == s.sample_id) = true
  · rw [if_pos h]
    exact h
  · rw [if_neg h]
    simp [hasSample, List.any_append]

lemma hasSample_mono_insertSample (db : DB) (s : Sample) (k : String)
    (h : hasSample db k = true) : hasSample (insertSample db s) k = true := by
  unfold insertSample
  split
  · exact h
  · simp only [hasSample, List.any_append, Bool.or_eq_true]
    exact Or.inl h

lemma insertSubject_of_has (db : DB) (su : Subject)
    (h : hasSubj db su.subject_id = true) : insertSubject db su = db := by
  unfold hasSubj at h
  unfold insertSubject
  rw [if_pos h]

lemma insertSample_of_has (db : DB) (s : Sample)
    (h : hasSample db s.sample_id = true) : insertSample db s = db := by
  unfold hasSample at h
  unfold insertSample
  rw [if_pos h]

/-- Elimination principle for a successful `loadRow`: the six sample
integers parsed, the sample was insert-or-ignored, and either the subject
was already in `subjects_seen` (subject step skipped, age never parsed) or
the age parsed and the subject record was insert-or-ignored. -/
lemma loadRow_ok_elim {db : DB} {seen : List String} {r : CsvRow} {db1 : DB}
    {seen1 : List String} (h : loadRow db seen r = Except.ok (db1, seen1)) :
    ∃ db' tf b c8 c4 nk mo,
      pyInt r.time_from_treatment_start = some tf ∧ pyInt r.b_cell = some b ∧
      pyInt r.cd8_t_cell = some c8 ∧ pyInt r.cd4_t_cell = some c4 ∧
      pyInt r.nk_cell = some nk ∧ pyInt r.monocyte = some mo ∧
      db1 = insertSample db' (sampleOf r tf b c8 c4 nk mo) ∧
      ((r.subject ∈ seen ∧ db' = db ∧ seen1 = seen) ∨
        (r.subject ∉ seen ∧ ∃ a, pyInt r.age = some a ∧
          db' = insertSubject db (subjOf r a) ∧ seen1 = seen ++ [r.subject])) := by
  unfold loadRow at h
  cases hstep : subjStep db seen r with
  | error e =>
    rw [hstep] at h
    simp at h
  | ok pr =>
    obtain ⟨db', seen'⟩ := pr
    rw [hstep] at h
    cases htf : pyInt r.time_from_treatment_start with
    | none => rw [htf] at h; simp at h
    | some tf =>
    rw [htf] at h
    cases hb : pyInt r.b_cell with
    | none => rw [hb] at h; simp at h
    | some b =>
    rw [hb] at h
    cases hc8 : pyInt r.cd8_t_cell with
    | none => rw [hc8] at h; simp at h
    | some c8 =>
    rw [hc8] at h
    cases hc4 : pyInt r.cd4_t_cell with
    | none => rw [hc4] at h; simp at h
    | some c4 =>
    rw [hc4] at h
    cases hnk : pyInt r.nk_cell with
    | none => rw [hnk] at h; simp at h
    | some nk =>
    rw [hnk] at h
    cases hmo : pyInt r.monocyte with
    | none => rw [hmo] at h; simp at h
    | some mo =>
    rw [hmo] at h
    simp only [Except.ok.injEq, Prod.mk.injEq] at h
    obtain ⟨hdb1, hseen1⟩ := h
    refine ⟨db', tf, b, c8, c4, nk, mo, rfl, rfl, rfl, rfl, rfl, rfl, hdb1.symm, ?_⟩
    unfold subjStep at hstep
    by_cases hseen : r.subject ∈ seen
    · rw [if_pos hseen] at hstep
      simp only [Except.ok.injEq, Prod.mk.injEq] at hstep
      exact Or.inl ⟨hseen, hstep.1.symm, hseen1.symm.trans hstep.2.symm⟩
    · rw [if_neg hseen] at hstep
      cases hage : pyInt r.age with
      | none => rw [hage] at hstep; simp at hstep
      | some a =>
        rw [hage] at hstep
        simp only [Except.ok.injEq, Prod.mk.injEq] at hstep
        exact Or.inr ⟨hseen, a, rfl, hstep.1.symm, hseen1.symm.trans hstep.2.symm⟩

/-- Primary keys present in the store stay present across the row loop. -/
lemma loadCsvAux_mono {rows : List CsvRow} :
    ∀ {db : DB} {seen : List String} {db1 : DB} {seen1 : List String},
    loadCsvAux db seen rows = Except.ok (db1, seen1) →
    (∀ sid, hasSubj db sid = true → hasSubj db1 sid = true) ∧
    (∀ k, hasSample db k = true → hasSample db1 k = true) := by
  induction rows with
  | nil =>
    intro db seen db1 seen1 h
    unfold loadCsvAux at h
    simp only [Except.ok.injEq, Prod.mk.injEq] at h
    rw [← h.1]
    exact ⟨fun _ hs => hs, fun _ hs => hs⟩
  | cons r rs ih =>
    intro db seen db1 seen1 h
    unfold loadCsvAux at h
    cases hlr : loadRow db seen r with
    | error e => rw [hlr] at h; simp at h
    | ok pr =>
      obtain ⟨dbm, seenm⟩ := pr
      rw [hlr] at h
      obtain ⟨db', tf, b, c8, c4, nk, mo, -, -, -, -, -, -, hdbm, hbr⟩ :=
        loadRow_ok_elim hlr
      have hstep : (∀ sid, hasSubj db sid = true → hasSubj dbm sid = true) ∧
          (∀ k, hasSample db k = true → hasSample dbm k = true) := by
        subst hdbm
        rcases hbr with ⟨-, rfl, -⟩ | ⟨-, a, -, rfl, -⟩
        · exact ⟨fun sid hs => by rwa [hasSubj_insertSample],
            fun k hs => hasSample_mono_insertSample _ _ _ hs⟩
        · constructor
          · intro sid hs
            rw [hasSubj_insertSample]
            exact hasSubj_mono_insertSubject _ _ _ hs
          · intro k hs
            exact hasSample_mono_insertSample _ _ _ (by rwa [hasSample_insertSubject])
      exact ⟨fun sid hs => (ih h).1 sid (hstep.1 sid hs),
        fun k hs => (ih h).2 k (hstep.2 k hs)⟩

/-- After a successful run, every row's sample key is present, and every
row's subject key is present unless it was already in `subjects_seen` when
the run started. -/
lemma loadCsvAux_keys {rows : List CsvRow} :
    ∀ {db : DB} {seen : List String} {db1 : DB} {seen1 : List String},
    loadCsvAux db seen rows = Except.ok (db1, seen1) →
    ∀ r ∈ rows, hasSample db1 r.sample = true ∧
      (r.subject ∈ seen ∨ hasSubj db1 r.subject = true) := by
  induction rows with
  | nil =>
    intro db seen db1 seen1 h r hr
    exact absurd hr (List.not_mem_nil r)
  | cons r0 rs ih =>
    intro db seen db1 seen1 h r hr
    unfold loadCsvAux at h
    cases hlr : loadRow db seen r0 with
    | error e => rw [hlr] at h; simp at h
    | ok pr =>
      obtain ⟨dbm, seenm⟩ := pr
      rw [hlr] at h
      obtain ⟨db', tf, b, c8, c4, nk, mo, -, -, -, -, -, -, hdbm, hbr⟩ :=
        loadRow_ok_elim hlr
      have hsmp : hasSample dbm r0.sample = true := by
        subst hdbm
        exact hasSample_insertSample_self db' (sampleOf r0 tf b c8 c4 nk mo)
      rcases List.mem_cons.mp hr with rfl | hr'
      · refine ⟨(loadCsvAux_mono h).2 _ hsmp, ?_⟩
        rcases hbr with ⟨hseen, -, -⟩ | ⟨-, a, -, rfl, -⟩
        · exact Or.inl hseen
        · refine Or.inr ((loadCsvAux_mono h).1 _ ?_)
          subst hdbm
          rw [hasSubj_insertSample]
          exact hasSubj_insertSubject_self db (subjOf r a)
      · obtain ⟨hs1, hs2⟩ := ih h r hr'
        refine ⟨hs1, ?_⟩
        rcases hs2 with hs2 | hs2
        · rcases hbr with ⟨-, -, rfl⟩ | ⟨-, a, -, hdb', rfl⟩
          · exact Or.inl hs2
          · rcases List.mem_append.mp hs2 with hs2 | hs2
            · exact Or.inl hs2
            · rw [List.mem_singleton] at hs2
              refine Or.inr ((loadCsvAux_mono h).1 _ ?_)
              rw [hs2]
              subst hdbm
              subst hdb'
              rw [hasSubj_insertSample]
              exact hasSubj_insertSubject_self db (subjOf r0 a)
        · exact Or.inr hs2

/-- Re-running the loop on a store that already contains every key the
run would insert changes nothing and reproduces the same seen-set. -/
lemma loadCsvAux_rerun {rows : List CsvRow} :
    ∀ {db : DB} {seen : List String} {db1 : DB} {seen1 : List String} (db2 : DB),
    loadCsvAux db seen rows = Except.ok (db1, seen1) →
    (∀ r ∈ rows, hasSample db2 r.sample = true) →
    (∀ r ∈ rows, r.subject ∈ seen ∨ hasSubj db2 r.subject = true) →
    loadCsvAux db2 seen rows = Except.ok (db2, seen1) := by
  induction rows with
  | nil =>
    intro db seen db1 seen1 db2 h _ _
    unfold loadCsvAux at h ⊢
    simp only [Except.ok.injEq, Prod.mk.injEq] at h
    rw [h.2]
  | cons r rs ih =>
    intro db seen db1 seen1 db2 h h1 h2
    unfold loadCsvAux at h
    cases hlr : loadRow db seen r with
    | error e => rw [hlr] at h; simp at h
    | ok pr =>
      obtain ⟨dbm, seenm⟩ := pr
      rw [hlr] at h
      obtain ⟨db', tf, b, c8, c4, nk, mo, htf, hb, hc8, hc4, hnk, hmo, hdbm, hbr⟩ :=
        loadRow_ok_elim hlr
      have hsmp : hasSample db2 (sampleOf r tf b c8 c4 nk mo).sample_id = true :=
        h1 r (List.mem_cons_self r rs)
      have hseenm : seenm = seen ∨ seenm = seen ++ [r.subject] := by
        rcases hbr with ⟨-, -, hs⟩ | ⟨-, a, -, -, hs⟩
        · exact Or.inl hs
        · exact Or.inr hs
      have hlr2 : loadRow db2 seen r = Except.ok (db2, seenm) := by
        rcases hbr with ⟨hseen, -, hsm⟩ | ⟨hseen, a, hage, -, hsm⟩
        · have hss : subjStep db2 seen r = Except.ok (db2, seen) := by
            unfold subjStep
            rw [if_pos hseen]
          simp only [loadRow, hss, htf, hb, hc8, hc4, hnk, hmo]
          rw [insertSample_of_has db2 _ hsmp, hsm]
        · have hsubj : hasSubj db2 (subjOf r a).subject_id = true := by
            rcases h2 r (List.mem_cons_self r rs) with hs | hs
            · exact absurd hs hseen
            · exact hs
          have hss : subjStep db2 seen r = Except.ok (db2, seen ++ [r.subject]) := by
            unfold subjStep
            rw [if_neg hseen]
            simp only [hage]
            rw [insertSubject_of_has db2 _ hsubj]
          simp only [loadRow, hss, htf, hb, hc8, hc4, hnk, hmo]
          rw [insertSample_of_has db2 _ hsmp, hsm]
      have h1' : ∀ r' ∈ rs, hasSample db2 r'.sample = true :=
        fun r' hr' => h1 r' (List.mem_cons_of_mem r hr')
      have h2' : ∀ r' ∈ rs, r'.subject ∈ seenm ∨ hasSubj db2 r'.subject = true := by
        intro r' hr'
        rcases h2 r' (List.mem_cons_of_mem r hr') with hs | hs
        · rcases hseenm with rfl | rfl
          · exact Or.inl hs
          · exact Or.inl (List.mem_append_left _ hs)
        · exact Or.inr hs
      simp only [loadCsvAux, hlr2]
      exact ih db2 h h1' h2'

/-- Claim C4: running `load_csv` a second time over the same rows, against
the store the first run produced, returns that store unchanged: no
duplicate subject or sample rows are created (idempotence per natural
key). -/
theorem c4_ingestion_idempotent (db db1 : DB) (rows : List CsvRow)
    (h : load_csv db rows = Except.ok db1) :
    load_csv db1 rows = Except.ok db1 := by
  unfold load_csv at h ⊢
  cases haux : loadCsvAux db [] rows with
  | error e => rw [haux] at h; simp at h
  | ok pr =>
    obtain ⟨db1', seen1⟩ := pr
    rw [haux] at h
    simp only [Except.ok.injEq] at h
    subst h
    have hkeys := loadCsvAux_keys haux
    have h1 : ∀ r ∈ rows, hasSample db1' r.sample = true :=
      fun r hr => (hkeys r hr).1
    have h2 : ∀ r ∈ rows, r.subject ∈ ([] : List String) ∨
        hasSubj db1' r.subject = true := fun r hr => (hkeys r hr).2
    rw [loadCsvAux_rerun db1' haux h1 h2]

/-- A CSV row with well-formed integer fields. -/
def rowA : CsvRow :=
  ⟨"prj1", "sub1", "smp1", "melanoma", "30", "M", "miraclib", "yes", "PBMC",
    "0", "50", "20", "10", "10", "10"⟩

/-- The store produced by ingesting `[rowA]` into an empty store. -/
def dbA : DB :=
  ⟨[⟨"sub1", "prj1", "melanoma", 30, "M", "miraclib", some "yes"⟩],
    [⟨"smp1", "sub1", "PBMC", 0, 50, 20, 10, 10, 10⟩]⟩

/-- Witness for C4: ingesting `[rowA]` once gives `dbA`, and ingesting the
same rows again into `dbA` returns `dbA` unchanged. -/
theorem c4_ingestion_idempotent_witness : load_csv dbA [rowA] = Except.ok dbA :=
  c4_ingestion_idempotent dbEmpty dbA [rowA] (by rfl)

/-- The integer fields that `load_csv` parses on every row: a `none`
(non-numeric value) in any of them raises `ValueError`. -/
def badSampleInts (r : CsvRow) : Prop :=
  pyInt r.time_from_treatment_start = none ∨ pyInt r.b_cell = none ∨
  pyInt r.cd8_t_cell = none ∨ pyInt r.cd4_t_cell = none ∨
  pyInt r.nk_cell = none ∨ pyInt r.monocyte = none

/-- The row loop aborts whenever some row has a non-numeric sample integer
field, or a non-numeric age on a row whose subject is new to the run. -/
lemma loadCsvAux_abort {rows : List CsvRow} :
    ∀ {db : DB} {seen : List String} (i : ℕ) (hi : i < rows.length),
    (badSampleInts (rows.get ⟨i, hi⟩) ∨
      (pyInt (rows.get ⟨i, hi⟩).age = none ∧ (rows.get ⟨i, hi⟩).subject ∉ seen ∧
        (rows.get ⟨i, hi⟩).subject ∉ (rows.take i).map (fun r => r.subject))) →
    ∃ e, loadCsvAux db seen rows = Except.error e := by
  induction rows with
  | nil =>
    intro db seen i hi _
    exact absurd hi (by simp)
  | cons r rs ih =>
    intro db seen i hi hbad
    cases hlr : loadRow db seen r with
    | error e => exact ⟨e, by simp [loadCsvAux, hlr]⟩
    | ok pr =>
      obtain ⟨dbm, seenm⟩ := pr
      obtain ⟨db', tf, b, c8, c4, nk, mo, htf, hb, hc8, hc4, hnk, hmo, -, hbr⟩ :=
        loadRow_ok_elim hlr
      cases i with
      | zero =>
        exfalso
        have hbad0 : badSampleInts r ∨ (pyInt r.age = none ∧ r.subject ∉ seen) := by
          rcases hbad with h | ⟨h1, h2, -⟩
          · exact Or.inl h
          · exact Or.inr ⟨h1, h2⟩
        rcases hbad0 with h | ⟨hage, hseen⟩
        · unfold badSampleInts at h
          simp [htf, hb, hc8, hc4, hnk, hmo] at h
        · rcases hbr with ⟨hseen', -, -⟩ | ⟨-, a, hage', -, -⟩
          · exact hseen hseen'
          · rw [hage] at hage'
            exact Option.noConfusion hage'
      | succ j =>
        have hj : j < rs.length := Nat.succ_lt_succ_iff.mp hi
        have hbad' : badSampleInts (rs.get ⟨j, hj⟩) ∨
            (pyInt (rs.get ⟨j, hj⟩).age = none ∧ (rs.get ⟨j, hj⟩).subject ∉ seenm ∧
              (rs.get ⟨j, hj⟩).subject ∉ (rs.take j).map (fun r => r.subject)) := by
          rcases hbad with h | ⟨hage, hseen, htake⟩
          · exact Or.inl h
          · have htake' : (rs.get ⟨j, hj⟩).subject ≠ r.subject ∧
                (rs.get ⟨j, hj⟩).subject ∉ (rs.take j).map (fun x => x.subject) := by
              simpa [List.take_succ_cons, List.map_cons, List.mem_cons, not_or]
                using htake
            refine Or.inr ⟨hage, ?_, htake'.2⟩
            rcases hbr with ⟨-, -, rfl⟩ | ⟨-, a, -, -, rfl⟩
            · exact hseen
            · intro hm
              rcases List.mem_append.mp hm with hm | hm
              · exact hseen hm
              · rw [List.mem_singleton] at hm
                exact htake'.1 hm
        obtain ⟨e, he⟩ := @ih dbm seenm j hj hbad'
        exact ⟨e, by simp [loadCsvAux, hlr, he]⟩

/-- A CSV row whose subject repeats `rowA`'s subject but whose age field is
not numeric; every other integer field is numeric. -/
def rowBadAge : CsvRow :=
  ⟨"prj1", "sub1", "smp4", "melanoma", "abc", "M", "miraclib", "yes", "PBMC",
    "0", "1", "1", "1", "1", "1"⟩

/-- Counterexample to claim C8 as stated: the second input row carries the
non-numeric age "abc", yet ingestion completes successfully, because the
age of a row whose subject was already seen is never parsed. -/
theorem c8_nonnumeric_fatal_counterexample :
    pyInt rowBadAge.age = none ∧
    isOkE (load_csv dbEmpty [rowA, rowBadAge]) = true := by
  constructor <;> rfl

/-- Claim C8 (amended): ingestion aborts with a fatal error whenever any
row has a non-numeric `time_from_treatment_start` or population count, and
whenever a row whose subject has not appeared on an earlier row has a
non-numeric age; there is no recovery path.  (A non-numeric age on a row
whose subject already appeared is never parsed and does not abort.) -/
theorem c8_nonnumeric_fatal (db : DB) (rows : List CsvRow) (i : ℕ)
    (hi : i < rows.length)
    (hbad : badSampleInts (rows.get ⟨i, hi⟩) ∨
      (pyInt (rows.get ⟨i, hi⟩).age = none ∧
        (rows.get ⟨i, hi⟩).subject ∉ (rows.take i).map (fun r => r.subject))) :
    isOkE (load_csv db rows) = false := by
  have hbad' : badSampleInts (rows.get ⟨i, hi⟩) ∨
      (pyInt (rows.get ⟨i, hi⟩).age = none ∧
        (rows.get ⟨i, hi⟩).subject ∉ ([] : List String) ∧
        (rows.get ⟨i, hi⟩).subject ∉ (rows.take i).map (fun r => r.subject)) := by
    rcases hbad with h | ⟨h1, h2⟩
    · exact Or.inl h
    · exact Or.inr ⟨h1, List.not_mem_nil _, h2⟩
  obtain ⟨e, he⟩ := loadCsvAux_abort i hi hbad'
  unfold load_csv
  rw [he]
  rfl

/-- A CSV row with a non-numeric b_cell count. -/
def rowBadCount : CsvRow :=
  ⟨"prj1", "sub7", "smp7", "melanoma", "33", "M", "miraclib", "yes", "PBMC",
    "0", "x", "1", "1", "1", "1"⟩

/-- Witness for the amended C8: a single row with non-numeric b_cell count
makes the run abort. -/
theorem c8_nonnumeric_fatal_witness :
    isOkE (load_csv dbEmpty [rowBadCount]) = false :=
  c8_nonnumeric_fatal dbEmpty [rowBadCount] 0 (by decide)
    (Or.inl (Or.inr (Or.inl (by decide))))

/-- The subjects-table lookup by primary key. -/
def findSubj (db : DB) (sid : String) : Option Subject :=
  db.subjects.find? (fun su => su.subject_id == sid)

lemma findSubj_insertSample (db : DB) (s : Sample) (sid : String) :
    findSubj (insertSample db s) sid = findSubj db sid := by
  unfold findSubj
  rw [subjects_insertSample]

lemma hasSubj_iff_findSubj (db : DB) (sid : String) :
    hasSubj db sid = true ↔ (findSubj db sid).isSome = true := by
  unfold hasSubj findSubj
  rw [List.any_eq_true, List.find?_isSome]

/-- After a successful run, the subjects table maps each key to the record
it had before the run if present, and otherwise to the record built from
the FIRST input row carrying that subject key (later rows are ignored). -/
lemma loadCsvAux_find {rows : List CsvRow} :
    ∀ {db : DB} {seen : List String} {db1 : DB} {seen1 : List String},
    loadCsvAux db seen rows = Except.ok (db1, seen1) →
    (∀ s, s ∈ seen ↔ (findSubj db s).isSome = true) →
    ∀ sid, findSubj db1 sid =
      (findSubj db sid).or
        ((rows.find? (fun r => r.subject == sid)).bind
          (fun r => (pyInt r.age).map (fun a => subjOf r a))) := by
  induction rows with
  | nil =>
    intro db seen db1 seen1 h hInv sid
    unfold loadCsvAux at h
    simp only [Except.ok.injEq, Prod.mk.injEq] at h
    rw [← h.1]
    simp
  | cons r rs ih =>
    intro db seen db1 seen1 h hInv sid
    unfold loadCsvAux at h
    cases hlr : loadRow db seen r with
    | error e => rw [hlr] at h; simp at h
    | ok pr =>
      obtain ⟨dbm, seenm⟩ := pr
      rw [hlr] at h
      obtain ⟨db', tf, b, c8, c4, nk, mo, htf, hb, hc8, hc4, hnk, hmo, hdbm, hbr⟩ :=
        loadRow_ok_elim hlr
      rcases hbr with ⟨hseen, hdb', hsm⟩ | ⟨hseen, a, hage, hdb', hsm⟩
      · rw [hdb'] at hdbm
        have hfm : ∀ s, findSubj dbm s = findSubj db s := by
          intro s
          rw [hdbm, findSubj_insertSample]
        have hInv' : ∀ s, s ∈ seenm ↔ (findSubj dbm s).isSome = true := by
          intro s
          rw [hsm, hfm]
          exact hInv s
        have hrec := ih h hInv' sid
        rw [hfm] at hrec
        rw [hrec]
        by_cases hps : (r.subject == sid) = true
        · have hsid : sid ∈ seen := beq_iff_eq.mp hps ▸ hseen
          obtain ⟨x, hx⟩ := Option.isSome_iff_exists.mp ((hInv sid).mp hsid)
          rw [hx]
          rfl
        · rw [List.find?_cons_of_neg _ (by simpa using hps)]
      · rw [hdb'] at hdbm
        have hnod : findSubj db r.subject = none := by
          cases hf : findSubj db r.subject with
          | none => rfl
          | some x =>
            exact absurd ((hInv r.subject).mpr (by rw [hf]; rfl)) hseen
        have hcond : ¬(db.subjects.any
            (fun x => x.subject_id == (subjOf r a).subject_id) = true) := by
          intro hc
          have hc' := (hasSubj_iff_findSubj db r.subject).mp hc
          rw [hnod] at hc'
          exact Bool.noConfusion hc'
        have hins : (insertSubject db (subjOf r a)).subjects =
            db.subjects ++ [subjOf r a] := by
          unfold insertSubject
          rw [if_neg hcond]
        have hfm : ∀ s, findSubj dbm s =
            (findSubj db s).or
              ([subjOf r a].find? (fun su => su.subject_id == s)) := by
          intro s
          rw [hdbm, findSubj_insertSample]
          unfold findSubj
          rw [hins, List.find?_append]
        have hsingle : ∀ s, (r.subject == s) = true →
            [subjOf r a].find? (fun su => su.subject_id == s) =
              some (subjOf r a) := by
          intro s hs
          exact List.find?_cons_of_pos _ (by simpa [subjOf] using hs)
        have hsingle' : ∀ s, (r.subject == s) = false →
            [subjOf r a].find? (fun su => su.subject_id == s) = none := by
          intro s hs
          rw [List.find?_cons_of_neg _ (by simp [subjOf, hs]), List.find?_nil]
        have hInv' : ∀ s, s ∈ seenm ↔ (findSubj dbm s).isSome = true := by
          intro s
          rw [hsm, hfm s, List.mem_append, List.mem_singleton]
          by_cases hrs : (r.subject == s) = true
          · have heq := beq_iff_eq.mp hrs
            subst heq
            rw [hsingle _ (by simp), hnod]
            simp
          · have hs' : (r.subject == s) = false := by simpa using hrs
            rw [hsingle' _ hs', Option.or_none, ← hInv s]
            have hne : ¬s = r.subject := by
              intro hc
              subst hc
              simp at hs'
            simp [hne]
        have hrec := ih h hInv' sid
        rw [hrec, hfm sid]
        by_cases hps : (r.subject == sid) = true
        · have heq : r.subject = sid := beq_iff_eq.mp hps
          subst heq
          rw [hnod, hsingle _ (by simp), List.find?_cons_of_pos _ (by simp)]
          simp [hage]
        · have hs' : (r.subject == sid) = false := by simpa using hps
          rw [hsingle' _ hs', Option.or_none,
            List.find?_cons_of_neg _ (by simpa using hps)]

/-- Claim C9: after ingesting `rows` into a fresh store, the subject record
stored under each subject key is exactly the one built from the first input
row (in file order) carrying that key — including its project, condition,
age, sex, treatment and response fields; subject attributes of every later
row with the same key are ignored. -/
theorem c9_first_row_wins (rows : List CsvRow) (db1 : DB)
    (hok : load_csv dbEmpty rows = Except.ok db1) (sid : String) :
    findSubj db1 sid =
      (rows.find? (fun r => r.subject == sid)).bind
        (fun r => (pyInt r.age).map (fun a => subjOf r a)) := by
  unfold load_csv at hok
  cases haux : loadCsvAux dbEmpty [] rows with
  | error e => rw [haux] at hok; simp at hok
  | ok pr =>
    obtain ⟨db1', seen1⟩ := pr
    rw [haux] at hok
    simp only [Except.ok.injEq] at hok
    subst hok
    have hInv : ∀ s, s ∈ ([] : List String) ↔ (findSubj dbEmpty s).isSome = true := by
      intro s
      simp [findSubj, dbEmpty]
    have := loadCsvAux_find haux hInv sid
    rwa [show findSubj dbEmpty sid = none from rfl, Option.none_or] at this

/-- A CSV row repeating `rowA`'s subject with conflicting subject
attributes (different project, condition, age, sex, treatment, response). -/
def rowA2 : CsvRow :=
  ⟨"prj2", "sub1", "smp3", "lung", "99", "F", "placebo", "no", "tumor", "7",
    "1", "2", "3", "4", "5"⟩

/-- The store after ingesting `[rowA, rowA2]`: the subject keeps `rowA`'s
attributes, both samples are stored. -/
def db9 : DB :=
  ⟨[⟨"sub1", "prj1", "melanoma", 30, "M", "miraclib", some "yes"⟩],
    [⟨"smp1", "sub1", "PBMC", 0, 50, 20, 10, 10, 10⟩,
      ⟨"smp3", "sub1", "tumor", 7, 1, 2, 3, 4, 5⟩]⟩

/-- Witness for C9: after ingesting two conflicting rows for "sub1", the
stored record carries the first row's attributes. -/
theorem c9_first_row_wins_witness :
    findSubj db9 "sub1" =
      some ⟨"sub1", "prj1", "melanoma", 30, "M", "miraclib", some "yes"⟩ :=
  (c9_first_row_wins [rowA, rowA2] db9 (by rfl) "sub1").trans (by decide)

/-- `find?` returns the element at the first index whose prefix contains no
match. -/
lemma find?_eq_get_of_first {α : Type} (p : α → Bool) :
    ∀ (l : List α) (i : ℕ) (hi : i < l.length),
    ((l.take i).all (fun x => !p x)) = true →
    p (l.get ⟨i, hi⟩) = true →
    l.find? p = some (l.get ⟨i, hi⟩) := by
  intro l
  induction l with
  | nil =>
    intro i hi
    exact absurd hi (by simp)
  | cons a as ih =>
    intro i hi hall hp
    cases i with
    | zero => exact List.find?_cons_of_pos _ hp
    | succ j =>
      simp only [List.take_succ_cons, List.all_cons, Bool.and_eq_true] at hall
      have hpa : ¬p a = true := by
        rw [Bool.not_eq_true]
        simpa using hall.1
      rw [List.find?_cons_of_neg _ hpa]
      exact ih j (Nat.succ_lt_succ_iff.mp hi) hall.2 hp

/-- Claim C2: for every input row whose subject key has not been seen on an
earlier row of the run, a successful ingestion leaves a subject record
built from that row in the table — with an empty response field stored as
the explicit unknown value NULL (`none`), not rejected as an error. -/
theorem c2_new_subject_inserted (rows : List CsvRow) (db1 : DB)
    (hok : load_csv dbEmpty rows = Except.ok db1) (i : ℕ) (hi : i < rows.length)
    (hnew : (rows.get ⟨i, hi⟩).subject ∉ (rows.take i).map (fun r => r.subject)) :
    ∃ a, pyInt (rows.get ⟨i, hi⟩).age = some a ∧
      subjOf (rows.get ⟨i, hi⟩) a ∈ db1.subjects ∧
      ((rows.get ⟨i, hi⟩).response = "" →
        (subjOf (rows.get ⟨i, hi⟩) a).response = none) := by
  have hfind := c9_first_row_wins rows db1 hok (rows.get ⟨i, hi⟩).subject
  have hall : ((rows.take i).all
      (fun x => !(x.subject == (rows.get ⟨i, hi⟩).subject))) = true := by
    rw [List.all_eq_true]
    intro x hx
    simp only [Bool.not_eq_true', beq_eq_false_iff_ne, ne_eq]
    intro hc
    exact hnew (List.mem_map.mpr ⟨x, hx, hc⟩)
  have hfirst := find?_eq_get_of_first
    (fun r => r.subject == (rows.get ⟨i, hi⟩).subject) rows i hi hall (by simp)
  rw [hfirst] at hfind
  cases hage : pyInt (rows.get ⟨i, hi⟩).age with
  | none =>
    exfalso
    obtain ⟨e, he⟩ :=
      @loadCsvAux_abort rows dbEmpty [] i hi (Or.inr ⟨hage, List.not_mem_nil _, hnew⟩)
    unfold load_csv at hok
    rw [he] at hok
    exact Except.noConfusion hok
  | some a =>
    simp only [Option.some_bind, hage, Option.map_some'] at hfind
    refine ⟨a, rfl, ?_, ?_⟩
    · have hfind' : db1.subjects.find?
          (fun su => su.subject_id == (rows.get ⟨i, hi⟩).subject) =
            some (subjOf (rows.get ⟨i, hi⟩) a) := hfind
      exact List.mem_of_find?_eq_some hfind'
    · intro hresp
      simp only [subjOf, respOf]
      rw [if_pos hresp]

/-- A CSV row with an empty response field. -/
def rowB : CsvRow :=
  ⟨"prj1", "sub2", "smp2", "melanoma", "40", "F", "miraclib", "", "PBMC",
    "0", "5", "5", "5", "5", "5"⟩

/-- The store after ingesting `[rowB]`: the subject's response is NULL. -/
def dbB : DB :=
  ⟨[⟨"sub2", "prj1", "melanoma", 40, "F", "miraclib", none⟩],
    [⟨"smp2", "sub2", "PBMC", 0, 5, 5, 5, 5, 5⟩]⟩

/-- Witness for C2: ingesting the single row `rowB` (empty response field)
succeeds and stores its subject record with response NULL. -/
theorem c2_new_subject_inserted_witness :
    ∃ a, pyInt rowB.age = some a ∧ subjOf rowB a ∈ dbB.subjects ∧
      (rowB.response = "" → (subjOf rowB a).response = none) :=
  c2_new_subject_inserted [rowB] dbB (by rfl) 0 (by decide) (by decide)

end ICP
